import Mathlib

/-
Verification of the shm package of ghetzel/shmtool (shm/shm.go together with
the kernel binding shm/shm.c) against its design documentation.

The kernel shared-memory region is modelled as a total byte map `Memory`;
the cgo calls `sysv_shm_read` / `sysv_shm_write` are `memcpy`s on that map
(shm.c), and each Go method returns the transferred count, the Go error
value, the updated `Segment`, the updated buffer or memory, and the list of
kernel calls it issued.  A kernel call can fail (shmat returning -1 /
cgo errno), which the boolean `kOk` parameter models; every method issues at
most one kernel call.  The Go `Write` evaluates `unsafe.Pointer(&p[0])`, which
panics at run time when `p` is empty; `Segment.Write` therefore returns an
`Option`, with `none` standing for that panic.
-/

namespace Shmtool

/-- Bytes of the kernel shared-memory region, addressed by absolute byte
offset (the segment may be larger than `Segment.Size` because of page
rounding; the map is total). -/
def Memory : Type := Int → Int

/-- An all-zero region, used for concrete evaluations. -/
def memZero : Memory := fun _ => 0

/-- The Go struct `Segment` (shm.go): kernel id, kernel-reported size, and
the mutable stream cursor (field `offset`). -/
structure Segment where
  Id : Int
  Size : Int
  offset : Int
deriving DecidableEq, Repr

/-- The error taxonomy of the design document (§7), plus the end-of-stream
signal `EOF` which in Go is the distinguished value `io.EOF`. -/
inductive Err where
  | AllocationError
  | NotFoundError
  | AttachError
  | DetachError
  | IOError
  | InvalidSeekError
  | NotAttachedError
  | EOF
deriving DecidableEq, Repr

/-- A raw kernel call issued through the binding: `sysv_shm_read id len off`
or `sysv_shm_write id data len off` (shm.c). -/
inductive KernelOp where
  | read (id : Int) (len : Int) (off : Int)
  | write (id : Int) (data : List Int) (len : Int) (off : Int)
deriving DecidableEq, Repr

/-- Whether a kernel call touches the byte at absolute offset `i`:
`memcpy` over `len` bytes starting at `off` covers `off ≤ i < off + len`. -/
def KernelOp.coversByte : KernelOp → Int → Bool
  | .read _ len off, i => decide (off ≤ i) && decide (i < off + len)
  | .write _ _ len off, i => decide (off ≤ i) && decide (i < off + len)

/-- The bytes `sysv_shm_read` copies out: `len` bytes starting at `off`. -/
def readBytes (mem : Memory) (off : Int) (len : Int) : List Int :=
  (List.range len.toNat).map (fun (i : Nat) => mem (off + (i : Int)))

/-- The region after `sysv_shm_write`: `len` bytes of `input` placed at
`off`, everything else untouched. -/
def writeBytes (mem : Memory) (off : Int) (input : List Int) (len : Int) : Memory :=
  fun i => if off ≤ i ∧ i < off + len then input.getD (i - off).toNat 0 else mem i

/-- The Go built-in `copy(dst, src)`: copies `min (len dst) (len src)`
elements into the front of `dst` and returns that count. -/
def goCopy (dst src : List Int) : Nat × List Int :=
  (min dst.length src.length,
   src.take (min dst.length src.length) ++ dst.drop (min dst.length src.length))

/-- The two clamping steps shared by `Segment.Read` and `Segment.Write`
(shm.go): `length` is first capped to `Size`, then, if `length + offset`
would overrun, to `Size - offset`. -/
def clampLength (self : Segment) (l0 : Int) : Int :=
  let l1 := if self.Size < l0 then self.Size else l0
  if self.Size < l1 + self.offset then self.Size - self.offset else l1

/-- Everything observable about one call to `Segment.Read`: returned count
`n`, returned error, segment afterwards, contents of the caller buffer
afterwards, and the kernel calls issued. -/
structure ReadOut where
  n : Int
  err : Option Err
  seg : Segment
  dest : List Int
  trace : List KernelOp
deriving DecidableEq, Repr

/-- Go `func (self *Segment) Read(p []byte) (int, error)` (shm.go): fail if
`Id` is 0; `io.EOF` if `offset ≥ Size`; clamp the length; one kernel read at
`offset`; `copy` into `p`; advance `offset` by the copied count if positive,
else report `io.EOF`. -/
def Segment.Read (mem : Memory) (kOk : Bool) (self : Segment) (p : List Int) : ReadOut :=
  if self.Id = 0 then ⟨0, some .NotAttachedError, self, p, []⟩
  else if self.Size ≤ self.offset then ⟨0, some .EOF, self, p, []⟩
  else
    let len := clampLength self (p.length : Int)
    if kOk then
      let c := goCopy p (readBytes mem self.offset len)
      if 0 < c.1 then
        ⟨(c.1 : Int), none, { self with offset := self.offset + (c.1 : Int) }, c.2,
         [.read self.Id len self.offset]⟩
      else
        ⟨(c.1 : Int), some .EOF, self, c.2, [.read self.Id len self.offset]⟩
    else ⟨0, some .IOError, self, p, [.read self.Id len self.offset]⟩

/-- Everything observable about one call to `Segment.Write`. -/
structure WriteOut where
  n : Int
  err : Option Err
  seg : Segment
  mem : Memory
  trace : List KernelOp

/-- Go `func (self *Segment) Write(p []byte) (int, error)` (shm.go):
`io.EOF` if `offset ≥ Size`; clamp the length; then the call evaluates
`unsafe.Pointer(&p[0])`, which panics when `p` is empty (`none` here);
otherwise one kernel write at `offset`, after which `offset` advances by the
clamped length.  There is no check of the `Id` sentinel. -/
def Segment.Write (mem : Memory) (kOk : Bool) (self : Segment) (p : List Int) : Option WriteOut :=
  if self.Size ≤ self.offset then some ⟨0, some .EOF, self, mem, []⟩
  else
    let len := clampLength self (p.length : Int)
    if p = [] then none
    else if kOk then
      some ⟨len, none, { self with offset := self.offset + len },
            writeBytes mem self.offset p len, [.write self.Id p len self.offset]⟩
    else some ⟨0, some .IOError, self, mem, [.write self.Id p len self.offset]⟩

/-- Everything observable about one call to `Segment.ReadChunk`. -/
structure ChunkOut where
  bytes : Option (List Int)
  seg : Segment
  trace : List KernelOp
deriving DecidableEq, Repr

/-- Go `func (self *Segment) ReadChunk(length int64, start int64)`
(shm.go): a negative `length` is replaced by `Size`; then one kernel read of
`length` bytes at absolute offset `start` — no sentinel check, no bounds
clamping, and no use or update of the cursor. -/
def Segment.ReadChunk (mem : Memory) (kOk : Bool) (self : Segment)
    (length start : Int) : ChunkOut :=
  let len := if length < 0 then self.Size else length
  if kOk then ⟨some (readBytes mem start len), self, [.read self.Id len start]⟩
  else ⟨none, self, [.read self.Id len start]⟩

/-- Go `func (self *Segment) Reset()`: sets the cursor to 0. -/
def Segment.Reset (self : Segment) : Segment :=
  { self with offset := 0 }

/-- Go `func (self *Segment) Position()`: returns the cursor. -/
def Segment.Position (self : Segment) : Int :=
  self.offset

/-- Modelled from the spec: the candidate cursor of `Seek(offset, whence)`
(§4.6) — `whence = 1` is relative-to-current (`cursor + offset`),
`whence = 2` is relative-to-end (`size - offset`), otherwise absolute
(`offset`).  The two-argument `Seek` is exercised by `shm_test.go`
(`TestSeekAbsolute`, `TestSeekRelative`, `TestSeekFromEnd`) but its
implementation file is not among the sources. -/
def seekCandidate (self : Segment) (offset whence : Int) : Int :=
  if whence = 1 then self.offset + offset
  else if whence = 2 then self.Size - offset
  else offset

/-- Modelled from the spec: `Seek(offset, whence)` (§4.6) computes the
candidate cursor, fails with `InvalidSeekError` when it would be negative
(leaving the cursor unchanged), and otherwise stores it — values at or past
`Size` included — returning the new cursor. -/
def Segment.Seek (self : Segment) (offset whence : Int) : Int × Option Err × Segment :=
  if seekCandidate self offset whence < 0 then (0, some .InvalidSeekError, self)
  else (seekCandidate self offset whence, none,
        { self with offset := seekCandidate self offset whence })

/-- Go constant `IpcCreate = C.IPC_CREAT` (0o1000 on Linux). -/
def IpcCreate : Nat := 0o1000

/-- Go constant `IpcExclusive = C.IPC_EXCL` (0o2000 on Linux). -/
def IpcExclusive : Nat := 0o2000

/-- The kernel binding consumed by the lifecycle functions:
`sysv_shm_open size flags perm` yields an id and `sysv_shm_get_size id`
yields the kernel-reported (possibly page-rounded) byte size; `none` stands
for a failed call. -/
structure KernelEnv where
  shmOpen : Int → Nat → Nat → Option Int
  shmGetSize : Int → Option Int

/-- Go `func OpenSegment(size int, flags SharedMemoryFlags, perms os.FileMode)`
(shm.go): allocate-or-look-up an id, then immediately stat it and store the
kernel-reported size; the cursor starts at 0. -/
def OpenSegment (k : KernelEnv) (size : Int) (flags : Nat) (perms : Nat) : Option Segment :=
  match k.shmOpen size flags perms with
  | none => none
  | some shmid =>
    match k.shmGetSize shmid with
    | none => none
    | some actual => some ⟨shmid, actual, 0⟩

/-- Go `func Create(size int)` (shm.go): literally
`OpenSegment(size, (IpcCreate | IpcExclusive), 0600)`. -/
def Create (k : KernelEnv) (size : Int) : Option Segment :=
  OpenSegment k size (IpcCreate ||| IpcExclusive) 0o600

/-- The round-trip scenario of `TestWriteFullReadFull`: write `p` on a fresh
cursor-0 segment, `Reset`, then read `p.length` bytes back into a zeroed
buffer; yields the bytes read back, the count and the error
(`none` if the write panicked). -/
def writeResetRead (mem : Memory) (id size : Int) (p : List Int) :
    Option (List Int × Int × Option Err) :=
  match Segment.Write mem true ⟨id, size, 0⟩ p with
  | none => none
  | some w =>
    let r := Segment.Read w.mem true w.seg.Reset (List.replicate p.length 0)
    some (r.dest, r.n, r.err)

/-- A concrete kernel binding used for witnesses: allocation always yields
id 7, and the stat call reports a page-rounded 2048 bytes for that id. -/
def kDemo : KernelEnv :=
  ⟨fun _ _ _ => some 7, fun i => if i = 7 then some 2048 else none⟩

/-- The clamped length never exceeds the requested length, and the clamped
transfer always ends at or before the segment boundary. -/
theorem clampLength_le (self : Segment) (l0 : Int) :
    clampLength self l0 ≤ l0 ∧ self.offset + clampLength self l0 ≤ self.Size := by
  simp only [clampLength]
  split_ifs <;> omega

/-- A kernel read of `len` bytes yields exactly `len` bytes. -/
theorem readBytes_length (mem : Memory) (off len : Int) :
    (readBytes mem off len).length = len.toNat := by
  unfold readBytes
  rw [List.length_map, List.length_range]

/-- An empty kernel trace touches no byte at all. -/
theorem trace_bound_nil (S : Int) :
    ∀ op ∈ ([] : List KernelOp), ∀ i : Int, op.coversByte i = true → i < S := by
  simp

/-- A single kernel read ending at or before `S` touches no byte at `S` or
beyond. -/
theorem trace_bound_read (id len off S : Int) (hadd : off + len ≤ S) :
    ∀ op ∈ [KernelOp.read id len off], ∀ i : Int, op.coversByte i = true → i < S := by
  intro op hop i hci
  rw [List.mem_singleton] at hop
  subst hop
  simp only [KernelOp.coversByte, Bool.and_eq_true, decide_eq_true_eq] at hci
  omega

/-- A single kernel write ending at or before `S` touches no byte at `S` or
beyond. -/
theorem trace_bound_write (id : Int) (data : List Int) (len off S : Int)
    (hadd : off + len ≤ S) :
    ∀ op ∈ [KernelOp.write id data len off], ∀ i : Int, op.coversByte i = true → i < S := by
  intro op hop i hci
  rw [List.mem_singleton] at hop
  subst hop
  simp only [KernelOp.coversByte, Bool.and_eq_true, decide_eq_true_eq] at hci
  omega

/-- Reading a list back element-by-element through `getD` reproduces it. -/
theorem getD_range_map (l : List Int) :
    (List.range l.length).map (fun i => l.getD i 0) = l := by
  induction l with
  | nil => rfl
  | cons a t ih =>
    rw [List.length_cons, List.range_succ_eq_map, List.map_cons, List.map_map]
    have h2 : ((fun i => (a :: t).getD i 0) ∘ Nat.succ) = fun i => t.getD i 0 := by
      funext i
      simp [List.getD_cons_succ]
    rw [h2, ih, List.getD_cons_zero]

/-- A kernel read of the region just written returns the written bytes. -/
theorem readBytes_writeBytes (mem : Memory) (off : Int) (p : List Int) :
    readBytes (writeBytes mem off p (p.length : Int)) off (p.length : Int) = p := by
  have hmem : ∀ i ∈ List.range p.length,
      writeBytes mem off p (p.length : Int) (off + (i : Int)) = p.getD i 0 := by
    intro i hi
    rw [List.mem_range] at hi
    simp only [writeBytes]
    rw [if_pos ⟨by omega, by omega⟩]
    congr 1
    omega
  have hlen : ((p.length : Int)).toNat = p.length := by omega
  unfold readBytes
  rw [hlen]
  calc (List.range p.length).map
        (fun (i : Nat) => writeBytes mem off p (p.length : Int) (off + (i : Int)))
      = (List.range p.length).map (fun i => p.getD i 0) := List.map_congr_left hmem
    _ = p := getD_range_map p

/-- When the whole request fits between the cursor and the boundary, the
clamp leaves the requested length unchanged. -/
theorem clampLength_of_fits (self : Segment) (l0 : Int) (h0 : 0 ≤ self.offset)
    (h : self.offset + l0 ≤ self.Size) : clampLength self l0 = l0 := by
  simp only [clampLength]
  split_ifs <;> omega

/-- C1: boundary law — for every Segment with cursor < size and every buffer,
one call to `Read` or `Write` transfers at most
`min (len buffer) (size - cursor)` bytes, and the single kernel read/write it
issues never covers any byte at offset ≥ size. -/
theorem read_write_boundary_law (mem : Memory) (kOk : Bool) (self : Segment) (p : List Int)
    (h : self.offset < self.Size) :
    (Segment.Read mem kOk self p).n ≤ min (p.length : Int) (self.Size - self.offset) ∧
    (∀ op ∈ (Segment.Read mem kOk self p).trace, ∀ i : Int,
        op.coversByte i = true → i < self.Size) ∧
    (∀ w, Segment.Write mem kOk self p = some w →
      w.n ≤ min (p.length : Int) (self.Size - self.offset) ∧
      ∀ op ∈ w.trace, ∀ i : Int, op.coversByte i = true → i < self.Size) := by
  obtain ⟨hle, hadd⟩ := clampLength_le self (p.length : Int)
  refine ⟨?_, ?_, ?_⟩
  · have hc1 : (goCopy p (readBytes mem self.offset (clampLength self (p.length : Int)))).1
        ≤ p.length := Nat.min_le_left _ _
    have hc2 : (goCopy p (readBytes mem self.offset (clampLength self (p.length : Int)))).1
        ≤ (clampLength self (p.length : Int)).toNat := by
      have hr := readBytes_length mem self.offset (clampLength self (p.length : Int))
      calc (goCopy p (readBytes mem self.offset (clampLength self (p.length : Int)))).1
          ≤ (readBytes mem self.offset (clampLength self (p.length : Int))).length :=
            Nat.min_le_right _ _
        _ = (clampLength self (p.length : Int)).toNat := hr
    simp only [Segment.Read]
    split_ifs <;> dsimp only <;> omega
  · simp only [Segment.Read]
    split_ifs <;>
      first
        | exact trace_bound_nil _
        | exact trace_bound_read _ _ _ _ hadd
  · intro w hw
    simp only [Segment.Write] at hw
    split_ifs at hw with h1 h2 h3
    · omega
    · obtain rfl := Option.some.inj hw
      exact ⟨by dsimp only; omega, trace_bound_write _ _ _ _ _ hadd⟩
    · obtain rfl := Option.some.inj hw
      exact ⟨by dsimp only; omega, trace_bound_write _ _ _ _ _ hadd⟩

/-- Witness for C1 at a concrete input: a 4-byte segment with cursor 2 and a
6-byte buffer. -/
theorem read_write_boundary_law_witness :
    (⟨1, 4, 2⟩ : Segment).offset < (⟨1, 4, 2⟩ : Segment).Size ∧
    ((Segment.Read memZero true ⟨1, 4, 2⟩ [9, 9, 9, 9, 9, 9]).n ≤
        min (([9, 9, 9, 9, 9, 9] : List Int).length : Int)
          ((⟨1, 4, 2⟩ : Segment).Size - (⟨1, 4, 2⟩ : Segment).offset) ∧
      (∀ op ∈ (Segment.Read memZero true ⟨1, 4, 2⟩ [9, 9, 9, 9, 9, 9]).trace, ∀ i : Int,
          op.coversByte i = true → i < (⟨1, 4, 2⟩ : Segment).Size) ∧
      (∀ w, Segment.Write memZero true ⟨1, 4, 2⟩ [9, 9, 9, 9, 9, 9] = some w →
        w.n ≤ min (([9, 9, 9, 9, 9, 9] : List Int).length : Int)
            ((⟨1, 4, 2⟩ : Segment).Size - (⟨1, 4, 2⟩ : Segment).offset) ∧
        ∀ op ∈ w.trace, ∀ i : Int, op.coversByte i = true → i < (⟨1, 4, 2⟩ : Segment).Size)) :=
  ⟨by decide, read_write_boundary_law memZero true ⟨1, 4, 2⟩ [9, 9, 9, 9, 9, 9] (by decide)⟩

/-- C2 (amended): round-trip law for `1 ≤ n ≤ size` — writing the `n` bytes
of `p` on a fresh cursor-0 segment, then `Reset`, then reading `n` bytes via
`Read` returns exactly the bytes of `p`, with count `n` and no error.  The
original bound `0 ≤ n` fails because `Write` of an empty buffer panics; see
the counterexample. -/
theorem roundtrip_law (mem : Memory) (id size : Int) (p : List Int)
    (hid : id ≠ 0) (h1 : 1 ≤ p.length) (h2 : (p.length : Int) ≤ size) :
    writeResetRead mem id size p = some (p, (p.length : Int), none) := by
  have hclamp : clampLength ⟨id, size, 0⟩ (p.length : Int) = (p.length : Int) :=
    clampLength_of_fits _ _ le_rfl (by dsimp only; omega)
  have hc1 : ¬ ((size : Int) ≤ (0 : Int)) := by omega
  have hc2 : ¬ (p = []) := by
    intro hnil
    rw [hnil] at h1
    exact absurd h1 (by simp)
  have hw : Segment.Write mem true ⟨id, size, 0⟩ p =
      some ⟨(p.length : Int), none, ⟨id, size, 0 + (p.length : Int)⟩,
            writeBytes mem 0 p (p.length : Int), [.write id p (p.length : Int) 0]⟩ := by
    simp only [Segment.Write]
    rw [if_neg hc1, if_neg hc2, if_pos trivial, hclamp]
  have hgc : goCopy (List.replicate p.length 0) p = (p.length, p) := by
    simp [goCopy]
  have hrb : readBytes (writeBytes mem 0 p (p.length : Int)) 0 (p.length : Int) = p :=
    readBytes_writeBytes mem 0 p
  have hr : Segment.Read (writeBytes mem 0 p (p.length : Int)) true ⟨id, size, 0⟩
      (List.replicate p.length 0) =
      ⟨(p.length : Int), none, ⟨id, size, 0 + (p.length : Int)⟩, p,
       [.read id (p.length : Int) 0]⟩ := by
    simp only [Segment.Read, List.length_replicate, hclamp, hrb, hgc]
    rw [if_neg hid, if_neg hc1, if_pos trivial, if_pos (show 0 < p.length by omega)]
  unfold writeResetRead
  rw [hw]
  dsimp only [Segment.Reset]
  rw [hr]

/-- Counterexample for C2 as stated: at `size = 1` and `n = 0` the round-trip
yields nothing at all — `Write` of the empty buffer evaluates the address of
element 0 of a zero-length slice and panics — so it does not return the bytes
of `p`. -/
theorem roundtrip_law_zero_counterexample :
    writeResetRead memZero 1 1 [] = none := rfl

/-- Witness for C2 at a concrete input: one byte through a 2-byte segment. -/
theorem roundtrip_law_witness :
    1 ≤ ([7] : List Int).length ∧
    writeResetRead memZero 1 2 [7] = some ([7], (([7] : List Int).length : Int), none) :=
  ⟨by decide, roundtrip_law memZero 1 2 [7] (by decide) (by decide) (by decide)⟩

/-- C4: end-of-stream — for every Segment with a valid id and cursor ≥ size,
`Read` and `Write` transfer zero bytes, issue no kernel call, leave the whole
state unchanged, and report `EOF`, which differs from every member of the
error taxonomy. -/
theorem eof_read_write (mem : Memory) (kOk : Bool) (self : Segment) (p : List Int)
    (hid : self.Id ≠ 0) (h : self.Size ≤ self.offset) :
    Segment.Read mem kOk self p = ⟨0, some Err.EOF, self, p, []⟩ ∧
    Segment.Write mem kOk self p = some ⟨0, some Err.EOF, self, mem, []⟩ ∧
    Err.EOF ≠ Err.AllocationError ∧ Err.EOF ≠ Err.NotFoundError ∧
    Err.EOF ≠ Err.AttachError ∧ Err.EOF ≠ Err.DetachError ∧
    Err.EOF ≠ Err.IOError ∧ Err.EOF ≠ Err.InvalidSeekError ∧
    Err.EOF ≠ Err.NotAttachedError := by
  refine ⟨?_, ?_, by decide, by decide, by decide, by decide, by decide, by decide, by decide⟩
  · simp only [Segment.Read]
    rw [if_neg hid, if_pos h]
  · simp only [Segment.Write]
    rw [if_pos h]

/-- Witness for C4 at a concrete input: cursor 9 on a 4-byte segment. -/
theorem eof_read_write_witness :
    (⟨1, 4, 9⟩ : Segment).Size ≤ (⟨1, 4, 9⟩ : Segment).offset ∧
    (Segment.Read memZero true ⟨1, 4, 9⟩ [5] = ⟨0, some Err.EOF, ⟨1, 4, 9⟩, [5], []⟩ ∧
     Segment.Write memZero true ⟨1, 4, 9⟩ [5] = some ⟨0, some Err.EOF, ⟨1, 4, 9⟩, memZero, []⟩ ∧
     Err.EOF ≠ Err.AllocationError ∧ Err.EOF ≠ Err.NotFoundError ∧
     Err.EOF ≠ Err.AttachError ∧ Err.EOF ≠ Err.DetachError ∧
     Err.EOF ≠ Err.IOError ∧ Err.EOF ≠ Err.InvalidSeekError ∧
     Err.EOF ≠ Err.NotAttachedError) :=
  ⟨by decide, eof_read_write memZero true ⟨1, 4, 9⟩ [5] (by decide) (by decide)⟩

/-- C5: error atomicity — when the kernel call fails, `Read` and `Write`
return the IOError-class error with zero bytes transferred, the segment
(cursor included) unchanged and the memory unchanged; the single failed
kernel call is the only one issued. -/
theorem kernel_failure_atomic (mem : Memory) (self : Segment) (p : List Int)
    (hid : self.Id ≠ 0) (h : self.offset < self.Size) :
    Segment.Read mem false self p =
      ⟨0, some Err.IOError, self, p,
       [KernelOp.read self.Id (clampLength self (p.length : Int)) self.offset]⟩ ∧
    (p ≠ [] →
      Segment.Write mem false self p =
        some ⟨0, some Err.IOError, self, mem,
              [KernelOp.write self.Id p (clampLength self (p.length : Int)) self.offset]⟩) := by
  constructor
  · simp only [Segment.Read]
    rw [if_neg hid, if_neg (not_le.mpr h), if_neg (by simp)]
  · intro hp
    simp only [Segment.Write]
    rw [if_neg (not_le.mpr h), if_neg hp, if_neg (by simp)]

/-- Witness for C5 at a concrete input: a failing kernel call with cursor 3
on an 8-byte segment. -/
theorem kernel_failure_atomic_witness :
    (⟨1, 8, 3⟩ : Segment).offset < (⟨1, 8, 3⟩ : Segment).Size ∧
    (Segment.Read memZero false ⟨1, 8, 3⟩ [4, 5] =
        ⟨0, some Err.IOError, ⟨1, 8, 3⟩, [4, 5],
         [KernelOp.read (⟨1, 8, 3⟩ : Segment).Id
            (clampLength ⟨1, 8, 3⟩ (([4, 5] : List Int).length : Int))
            (⟨1, 8, 3⟩ : Segment).offset]⟩ ∧
     (([4, 5] : List Int) ≠ [] →
       Segment.Write memZero false ⟨1, 8, 3⟩ [4, 5] =
         some ⟨0, some Err.IOError, ⟨1, 8, 3⟩, memZero,
               [KernelOp.write (⟨1, 8, 3⟩ : Segment).Id [4, 5]
                  (clampLength ⟨1, 8, 3⟩ (([4, 5] : List Int).length : Int))
                  (⟨1, 8, 3⟩ : Segment).offset]⟩)) :=
  ⟨by decide, kernel_failure_atomic memZero ⟨1, 8, 3⟩ [4, 5] (by decide) (by decide)⟩

/-- C6: the empty-buffer write — the spec says a no-op success of zero bytes,
but with cursor < size the code reaches `unsafe.Pointer(&p[0])` on a
zero-length slice and panics (`none`), never returning success. -/
theorem write_empty_buffer_panics (mem : Memory) (kOk : Bool) (self : Segment)
    (h : self.offset < self.Size) :
    Segment.Write mem kOk self [] = none := by
  simp only [Segment.Write]
  rw [if_neg (not_le.mpr h), if_pos trivial]

/-- Witness for C6 at a concrete input: empty write on a fresh 16-byte
segment. -/
theorem write_empty_buffer_panics_witness :
    (⟨1, 16, 0⟩ : Segment).offset < (⟨1, 16, 0⟩ : Segment).Size ∧
    Segment.Write memZero true ⟨1, 16, 0⟩ [] = none :=
  ⟨by decide, write_empty_buffer_panics memZero true ⟨1, 16, 0⟩ (by decide)⟩

/-- Counterexample for C7 as stated: on a Segment whose id is the invalid
sentinel 0 with cursor < size, `Write` succeeds (error `none`) instead of
failing with `NotAttachedError`. -/
theorem write_sentinel_id_succeeds :
    (Segment.Write memZero true ⟨0, 4, 0⟩ [7]).map WriteOut.err = some none := rfl

/-- C7 (amended): with the invalid sentinel id, `Read` fails with
`NotAttachedError` without touching anything; `Write`, however, performs no
sentinel check — it never returns `NotAttachedError`, and with cursor < size
and a non-empty buffer it invokes the kernel write with the sentinel id. -/
theorem sentinel_read_checked_write_unchecked (mem : Memory) (kOk : Bool) (self : Segment)
    (p : List Int) (hid : self.Id = 0) :
    Segment.Read mem kOk self p = ⟨0, some Err.NotAttachedError, self, p, []⟩ ∧
    (∀ w, Segment.Write mem kOk self p = some w → w.err ≠ some Err.NotAttachedError) ∧
    (self.offset < self.Size → p ≠ [] →
      (Segment.Write mem kOk self p).map WriteOut.trace =
        some [KernelOp.write self.Id p (clampLength self (p.length : Int)) self.offset]) := by
  refine ⟨?_, ?_, ?_⟩
  · simp only [Segment.Read]
    rw [if_pos hid]
  · intro w hw
    simp only [Segment.Write] at hw
    split_ifs at hw
    · obtain rfl := Option.some.inj hw
      simp
    · obtain rfl := Option.some.inj hw
      simp
    · obtain rfl := Option.some.inj hw
      simp
  · intro hoff hp
    simp only [Segment.Write]
    rw [if_neg (not_le.mpr hoff), if_neg hp]
    cases kOk <;> rfl

/-- Witness for C7 (amended) at a concrete input: sentinel id 0, cursor 1 on
a 5-byte segment, two-byte buffer. -/
theorem sentinel_read_checked_write_unchecked_witness :
    (⟨0, 5, 1⟩ : Segment).Id = 0 ∧
    (Segment.Read memZero true ⟨0, 5, 1⟩ [3, 4] =
        ⟨0, some Err.NotAttachedError, ⟨0, 5, 1⟩, [3, 4], []⟩ ∧
     (∀ w, Segment.Write memZero true ⟨0, 5, 1⟩ [3, 4] = some w →
        w.err ≠ some Err.NotAttachedError) ∧
     ((⟨0, 5, 1⟩ : Segment).offset < (⟨0, 5, 1⟩ : Segment).Size → ([3, 4] : List Int) ≠ [] →
       (Segment.Write memZero true ⟨0, 5, 1⟩ [3, 4]).map WriteOut.trace =
         some [KernelOp.write (⟨0, 5, 1⟩ : Segment).Id [3, 4]
                 (clampLength ⟨0, 5, 1⟩ (([3, 4] : List Int).length : Int))
                 (⟨0, 5, 1⟩ : Segment).offset])) :=
  ⟨rfl, sentinel_read_checked_write_unchecked memZero true ⟨0, 5, 1⟩ [3, 4] rfl⟩

/-- C8: `ReadChunk` frame effect — every component of the Segment state is
unchanged by the call, whatever `length` and `start` are, and with a negative
`length` the byte count returned on success equals the whole segment size. -/
theorem readchunk_frame (mem : Memory) (kOk : Bool) (self : Segment) (length start : Int) :
    (Segment.ReadChunk mem kOk self length start).seg = self ∧
    (length < 0 → 0 ≤ self.Size →
      ((Segment.ReadChunk mem true self length start).bytes).map
          (fun bs => (bs.length : Int)) = some self.Size) := by
  constructor
  · simp only [Segment.ReadChunk]
    split_ifs <;> rfl
  · intro hneg hsz
    simp only [Segment.ReadChunk]
    rw [if_pos hneg, if_pos trivial]
    simp only [Option.map, readBytes_length, Int.toNat_of_nonneg hsz]

/-- Witness for C8 at a concrete input: whole-segment read with `length = -1`
on an 8-byte segment whose cursor sits at 3. -/
theorem readchunk_frame_witness :
    (Segment.ReadChunk memZero true ⟨1, 8, 3⟩ (-1) 0).seg = ⟨1, 8, 3⟩ ∧
    ((Segment.ReadChunk memZero true ⟨1, 8, 3⟩ (-1) 0).bytes).map
        (fun bs => (bs.length : Int)) = some (⟨1, 8, 3⟩ : Segment).Size :=
  ⟨(readchunk_frame memZero true ⟨1, 8, 3⟩ (-1) 0).1,
   (readchunk_frame memZero true ⟨1, 8, 3⟩ (-1) 0).2 (by decide) (by decide)⟩

/-- C10: `ReadChunk` performs no bounds clamping — for every non-negative
`length` and every `start` it issues exactly one kernel read of exactly
`length` bytes at offset `start`, and that read covers exactly the offsets
`start ≤ i < start + length`, with no reference to the Segment size. -/
theorem readchunk_no_clamp (mem : Memory) (kOk : Bool) (self : Segment)
    (length start : Int) (h : 0 ≤ length) :
    (Segment.ReadChunk mem kOk self length start).trace =
      [KernelOp.read self.Id length start] ∧
    (∀ i : Int, (KernelOp.read self.Id length start).coversByte i = true ↔
      (start ≤ i ∧ i < start + length)) := by
  constructor
  · simp only [Segment.ReadChunk, if_neg (not_lt.mpr h)]
    split_ifs <;> rfl
  · intro i
    simp [KernelOp.coversByte]

/-- Witness for C10 at a concrete input: a 10-byte read starting at offset
-2 on a segment of size 4 — both bounds lie outside the segment. -/
theorem readchunk_no_clamp_witness :
    (0 : Int) ≤ 10 ∧
    ((Segment.ReadChunk memZero true ⟨1, 4, 0⟩ 10 (-2)).trace =
        [KernelOp.read (⟨1, 4, 0⟩ : Segment).Id 10 (-2)] ∧
      (∀ i : Int, (KernelOp.read (⟨1, 4, 0⟩ : Segment).Id 10 (-2)).coversByte i = true ↔
        ((-2 : Int) ≤ i ∧ i < -2 + 10))) :=
  ⟨by decide, readchunk_no_clamp memZero true ⟨1, 4, 0⟩ 10 (-2) (by decide)⟩

/-- C3: the Seek contract — for the three addressing modes (0 absolute,
1 relative-to-current, 2 relative-to-end) the candidate cursor is `offset`,
`cursor + offset` and `size - offset` respectively; the call fails with
`InvalidSeekError` exactly when the candidate is negative, leaving the cursor
unchanged, and any non-negative candidate (values at or past size included)
is stored and returned. -/
theorem seek_contract (self : Segment) (offset whence : Int)
    (hw : whence = 0 ∨ whence = 1 ∨ whence = 2) :
    (whence = 0 → seekCandidate self offset whence = offset) ∧
    (whence = 1 → seekCandidate self offset whence = self.offset + offset) ∧
    (whence = 2 → seekCandidate self offset whence = self.Size - offset) ∧
    ((Segment.Seek self offset whence).2.1 = some Err.InvalidSeekError ↔
      seekCandidate self offset whence < 0) ∧
    (seekCandidate self offset whence < 0 →
      Segment.Seek self offset whence = (0, some Err.InvalidSeekError, self)) ∧
    (0 ≤ seekCandidate self offset whence →
      Segment.Seek self offset whence =
        (seekCandidate self offset whence, none,
         { self with offset := seekCandidate self offset whence })) := by
  refine ⟨?_, ?_, ?_, ?_, ?_, ?_⟩
  · intro h0
    subst h0
    simp [seekCandidate]
  · intro h1
    subst h1
    simp [seekCandidate]
  · intro h2
    subst h2
    norm_num [seekCandidate]
  · simp only [Segment.Seek]
    split_ifs with hc
    · simp [hc]
    · simp [hc]
  · intro hneg
    simp only [Segment.Seek]
    rw [if_pos hneg]
  · intro hpos
    simp only [Segment.Seek]
    rw [if_neg (not_lt.mpr hpos)]

/-- Witness for C3 at the concrete input of `TestSeekFromEnd`: seeking 8 from
the end of a 16-byte segment lands the cursor at 8. -/
theorem seek_contract_witness :
    ((2 : Int) = 0 → seekCandidate ⟨1, 16, 0⟩ 8 2 = 8) ∧
    ((2 : Int) = 1 → seekCandidate ⟨1, 16, 0⟩ 8 2 = (⟨1, 16, 0⟩ : Segment).offset + 8) ∧
    ((2 : Int) = 2 → seekCandidate ⟨1, 16, 0⟩ 8 2 = (⟨1, 16, 0⟩ : Segment).Size - 8) ∧
    ((Segment.Seek ⟨1, 16, 0⟩ 8 2).2.1 = some Err.InvalidSeekError ↔
      seekCandidate ⟨1, 16, 0⟩ 8 2 < 0) ∧
    (seekCandidate ⟨1, 16, 0⟩ 8 2 < 0 →
      Segment.Seek ⟨1, 16, 0⟩ 8 2 = (0, some Err.InvalidSeekError, ⟨1, 16, 0⟩)) ∧
    (0 ≤ seekCandidate ⟨1, 16, 0⟩ 8 2 →
      Segment.Seek ⟨1, 16, 0⟩ 8 2 =
        (seekCandidate ⟨1, 16, 0⟩ 8 2, none,
         { (⟨1, 16, 0⟩ : Segment) with offset := seekCandidate ⟨1, 16, 0⟩ 8 2 })) :=
  seek_contract ⟨1, 16, 0⟩ 8 2 (by decide)

/-- C9: `Create size` is exactly `OpenSegment size (CREATE ||| EXCLUSIVE) 0600`,
and on success the stored size is the one the stat-equivalent kernel call
reports for the new id — not the requested size. -/
theorem create_opensegment (k : KernelEnv) (size : Int) :
    Create k size = OpenSegment k size (IpcCreate ||| IpcExclusive) 0o600 ∧
    (∀ seg, Create k size = some seg → k.shmGetSize seg.Id = some seg.Size) := by
  refine ⟨rfl, ?_⟩
  intro seg hseg
  unfold Create OpenSegment at hseg
  cases ho : k.shmOpen size (IpcCreate ||| IpcExclusive) 0o600 with
  | none =>
    rw [ho] at hseg
    exact absurd hseg (by simp)
  | some newid =>
    rw [ho] at hseg
    dsimp only at hseg
    cases hs : k.shmGetSize newid with
    | none =>
      rw [hs] at hseg
      exact absurd hseg (by simp)
    | some actual =>
      rw [hs] at hseg
      dsimp only at hseg
      obtain rfl := Option.some.inj hseg
      exact hs

/-- Witness for C9 on the concrete binding `kDemo`: a request for 1024 bytes
yields id 7 whose stored size is the kernel-reported 2048, and the stat call
agrees. -/
theorem create_opensegment_witness :
    Create kDemo 1024 = OpenSegment kDemo 1024 (IpcCreate ||| IpcExclusive) 0o600 ∧
    kDemo.shmGetSize (7 : Int) = some 2048 :=
  ⟨(create_opensegment kDemo 1024).1,
   (create_opensegment kDemo 1024).2 ⟨7, 2048, 0⟩ rfl⟩

end Shmtool
